import Mathlib

/-!
Shallow embedding of two Inkscape extension scripts from mightyscape-1.X:
`bounding_box/bounding_box.py` and `vpype_tools/vpypetools.py`, together
with theorems settling the specification claims about them.

Floating-point arithmetic of the Python sources is modelled over `ℚ`
(exact field arithmetic); the one square root (circle radius) lives in `ℝ`.
-/

namespace BoundingBoxExt

/-- An axis-aligned bounding box as used by `inkex.transforms.BoundingBox`:
`left`, `top`, `width`, `height`. -/
structure BBox where
  left : ℚ
  top : ℚ
  width : ℚ
  height : ℚ
deriving DecidableEq, Repr

/-- The `inkex` bounding-box center (x): midpoint of the horizontal extent. -/
def BBox.center_x (b : BBox) : ℚ := b.left + b.width / 2

/-- The `inkex` bounding-box center (y): midpoint of the vertical extent. -/
def BBox.center_y (b : BBox) : ℚ := b.top + b.height / 2

/-- The options declared by `BoundingBox.add_arguments`. -/
structure BBoxOptions where
  offset : ℚ
  box : Bool
  corner_radius : ℚ
  circle : Bool
  split : Bool

/-- An SVG shape element as emitted by the drawer: either an `svg:rect`
with attributes `x`, `y`, `width`, `height`, `rx`, `ry`, or an `svg:circle`
with attributes `cx`, `cy`, `r`. -/
inductive SvgElem where
  | rect (x y width height rx ry : ℚ)
  | circle (cx cy : ℚ) (r : ℝ)

/-- Embedding of `BoundingBox.drawBBox`: the list of elements appended to
the current layer, in order (rect first when `box` is set, then the circle
when `circle` is set). -/
noncomputable def drawBBox (opts : BBoxOptions) (bbox : BBox) : List SvgElem :=
  (if opts.box then
    [SvgElem.rect (bbox.left - opts.offset) (bbox.top - opts.offset)
      (bbox.width + 2 * opts.offset) (bbox.height + 2 * opts.offset)
      opts.corner_radius opts.corner_radius]
   else []) ++
  (if opts.circle then
    [SvgElem.circle bbox.center_x bbox.center_y
      (Real.sqrt ((((bbox.width + 2 * opts.offset) : ℚ) : ℝ) * (((bbox.width + 2 * opts.offset) : ℚ) : ℝ)
        + (((bbox.height + 2 * opts.offset) : ℚ) : ℝ) * (((bbox.height + 2 * opts.offset) : ℚ) : ℝ)) / 2)]
   else [])

/-- Union of two bounding boxes (`inkex.transforms.BoundingBox.__add__`). -/
def unionBB (a b : BBox) : BBox :=
  { left := min a.left b.left
    top := min a.top b.top
    width := max (a.left + a.width) (b.left + b.width) - min a.left b.left
    height := max (a.top + a.height) (b.top + b.height) - min a.top b.top }

/-- The `None`-tolerant accumulation of bounding boxes, as in
`bbox += element.bounding_box()` starting from `bbox = None`
(`inkex.transforms.BoundingBox.__radd__` treats `None` as identity). -/
def addOptBB (acc : Option BBox) (b : BBox) : Option BBox :=
  some (match acc with
    | none => b
    | some a => unionBB a b)

/-- Bounding box of a list of element boxes — the sum the `inkex`
selection/`ElementList.bounding_box` computes over its members. -/
def sumBBox (l : List BBox) : Option BBox :=
  l.foldl addOptBB none

/-- Embedding of `BoundingBox.effect`.  The selection is given by the list
of the bounding boxes of the selected elements, in selection order.  Returns the
elements appended to the current layer and the error messages emitted. -/
noncomputable def boundingBoxEffect (opts : BBoxOptions) (selected : List BBox) :
    List SvgElem × List String :=
  if 0 < selected.length then
    if opts.split = false then
      ((selected.map (drawBBox opts)).flatten, [])
    else
      (drawBBox opts ((sumBBox selected).getD ⟨0, 0, 0, 0⟩), [])
  else
    ([], ["Please select some objects first."])

/-- C1: with the box option enabled, the first element emitted by `drawBBox`
is a rectangle with `x = bbox.left - offset`, `y = bbox.top - offset`,
`width = bbox.width + 2*offset` and `height = bbox.height + 2*offset`. -/
theorem c1_box_rect (opts : BBoxOptions) (bbox : BBox) (hbox : opts.box = true) :
    (drawBBox opts bbox).head? =
      some (SvgElem.rect (bbox.left - opts.offset) (bbox.top - opts.offset)
        (bbox.width + 2 * opts.offset) (bbox.height + 2 * opts.offset)
        opts.corner_radius opts.corner_radius) := by
  simp [drawBBox, hbox]

/-- C1 witness: one square path of side 10 at the origin with offset 2 and
box enabled gives a rect with x = -2, y = -2, width = 14, height = 14. -/
theorem c1_box_rect_witness :
    (BBoxOptions.mk 2 true 0 false true).box = true ∧
    (drawBBox (BBoxOptions.mk 2 true 0 false true) (BBox.mk 0 0 10 10)).head? =
      some (SvgElem.rect (-2) (-2) 14 14 0 0) := by
  refine ⟨rfl, ?_⟩
  have h := c1_box_rect (BBoxOptions.mk 2 true 0 false true) (BBox.mk 0 0 10 10) rfl
  norm_num at h
  exact h

/-- C2: with the circle option enabled, `drawBBox` emits a circle centered
at the bounding box center whose radius is half the diagonal of the
offset-expanded box. -/
theorem c2_circle (opts : BBoxOptions) (bbox : BBox) (hc : opts.circle = true) :
    SvgElem.circle bbox.center_x bbox.center_y
      (Real.sqrt (((bbox.width : ℝ) + 2 * (opts.offset : ℝ)) ^ 2
        + ((bbox.height : ℝ) + 2 * (opts.offset : ℝ)) ^ 2) / 2)
      ∈ drawBBox opts bbox := by
  simp [drawBBox, hc]
  congr 1
  congr 1
  ring

/-- C2 witness: box 3 × 4 at the origin with offset 0 gives a circle of
radius 5/2 centered at (3/2, 2). -/
theorem c2_circle_witness :
    (BBoxOptions.mk 0 false 0 true true).circle = true ∧
    SvgElem.circle (3 / 2) 2 (5 / 2)
      ∈ drawBBox (BBoxOptions.mk 0 false 0 true true) (BBox.mk 0 0 3 4) := by
  refine ⟨rfl, ?_⟩
  have h := c2_circle (BBoxOptions.mk 0 false 0 true true) (BBox.mk 0 0 3 4) rfl
  have hs : Real.sqrt ((((3 : ℚ) : ℝ) + 2 * ((0 : ℚ) : ℝ)) ^ 2
      + (((4 : ℚ) : ℝ) + 2 * ((0 : ℚ) : ℝ)) ^ 2) = 5 := by
    have : ((((3 : ℚ) : ℝ) + 2 * ((0 : ℚ) : ℝ)) ^ 2
        + (((4 : ℚ) : ℝ) + 2 * ((0 : ℚ) : ℝ)) ^ 2) = (5 : ℝ) ^ 2 := by
      norm_num
    rw [this]
    exact Real.sqrt_sq (by norm_num)
  rw [hs] at h
  have hcx : (BBox.mk 0 0 3 4).center_x = 3 / 2 := by
    norm_num [BBox.center_x]
  have hcy : (BBox.mk 0 0 3 4).center_y = 2 := by
    norm_num [BBox.center_y]
  rw [hcx, hcy] at h
  exact h

/-- C4: with an empty selection the effect emits no element and produces
the error message. -/
theorem c4_empty_selection (opts : BBoxOptions) :
    boundingBoxEffect opts [] = ([], ["Please select some objects first."]) := by
  simp [boundingBoxEffect]

/-- C7: for a non-empty selection, with `split = false` one bounding box is
drawn per selected element (in selection order), and with `split = true`
exactly one bounding box is drawn for the selection as a whole. -/
theorem c7_split_modes (opts : BBoxOptions) (selected : List BBox)
    (hne : selected ≠ []) :
    (opts.split = false →
      boundingBoxEffect opts selected = ((selected.map (drawBBox opts)).flatten, [])) ∧
    (opts.split = true →
      boundingBoxEffect opts selected =
        (drawBBox opts ((sumBBox selected).getD ⟨0, 0, 0, 0⟩), [])) := by
  have hlen : 0 < selected.length := List.length_pos.mpr hne
  constructor
  · intro hs
    simp [boundingBoxEffect, hlen, hs]
  · intro hs
    simp [boundingBoxEffect, hlen, hs]

/-- C7 witness: a two-element selection with `split = true` draws one box. -/
theorem c7_split_modes_witness :
    ([BBox.mk 0 0 1 1, BBox.mk 2 2 1 1] ≠ ([] : List BBox)) ∧
    ((BBoxOptions.mk 0 true 0 false true).split = true →
      boundingBoxEffect (BBoxOptions.mk 0 true 0 false true) [BBox.mk 0 0 1 1, BBox.mk 2 2 1 1] =
        (drawBBox (BBoxOptions.mk 0 true 0 false true)
          ((sumBBox [BBox.mk 0 0 1 1, BBox.mk 2 2 1 1]).getD ⟨0, 0, 0, 0⟩), [])) := by
  refine ⟨by simp, ?_⟩
  exact (c7_split_modes (BBoxOptions.mk 0 true 0 false true)
    [BBox.mk 0 0 1 1, BBox.mk 2 2 1 1] (by simp)).2

end BoundingBoxExt

namespace VpypeTools

open BoundingBoxExt

/-- A 2-D point (`shapely.geometry.Point` with rational coordinates). -/
structure Point where
  x : ℚ
  y : ℚ
deriving DecidableEq, Repr

/-- A parsed `CubicSuperPath`: a list of subpaths, each a list of control
triples `(handle_before, on_curve_point, handle_after)`; `csp[1]` is the
on-curve point, here the middle component. -/
abbrev CSP := List (List (Point × Point × Point))

/-- An element of the XML document tree.  `id` models `lxml` node identity
(two distinct live nodes never share an id); `d` is the parsed path data
(empty and irrelevant for non-path nodes); `transform` models the transform
attribute as an optional `translate(x, y)` pair; `bbox` is the value
`element.bounding_box()` reports (transform-flattening preserves rendered
bounding boxes, so it is a plain attribute here). -/
inductive XNode : Type where
  | mk (id : Nat) (tag : String) (d : CSP) (transform : Option (ℚ × ℚ))
      (bbox : BBox) (children : List XNode)

/-- Node id accessor. -/
def XNode.id : XNode → Nat
  | .mk i _ _ _ _ _ => i

/-- Node tag accessor. -/
def XNode.tag : XNode → String
  | .mk _ t _ _ _ _ => t

/-- Parsed path-data accessor. -/
def XNode.d : XNode → CSP
  | .mk _ _ d _ _ _ => d

/-- Transform-attribute accessor. -/
def XNode.transform : XNode → Option (ℚ × ℚ)
  | .mk _ _ _ tr _ _ => tr

/-- Reported bounding box accessor (`element.bounding_box()`). -/
def XNode.bbox : XNode → BBox
  | .mk _ _ _ _ bb _ => bb

/-- Children accessor (`node.getchildren()`). -/
def XNode.children : XNode → List XNode
  | .mk _ _ _ _ _ cs => cs

/-- The namespaced svg path tag `inkex.addNS("path", "svg")`. -/
def svgPathTag : String := "svg:path"

/-- The point list built by the nested loops of `convertPath`:
`for subpath in p: for csp in subpath: points.append(Point(csp[1][0], csp[1][1]))`. -/
def cspPoints (p : CSP) : List Point :=
  p.foldl (fun pts subpath =>
    subpath.foldl (fun pts2 csp => pts2 ++ [Point.mk csp.2.1.x csp.2.1.y]) pts) []

/-- The mutable state threaded through `convertPath`: the vpype
`LineCollection` (a list of polylines) and the `nodesToConvert` list. -/
structure ConvState where
  lc : List (List Point)
  nodesToConvert : List XNode

mutual

/-- Embedding of the recursive closure `convertPath` of `vpypetools.effect`:
a path node is recorded in `nodesToConvert` and its on-curve points are
appended to the line collection as one polyline; then all children are
visited in order. -/
def convertPath : XNode → ConvState → ConvState
  | XNode.mk i t d tr bb cs, st =>
    let st1 :=
      if t = svgPathTag then
        { lc := st.lc ++ [cspPoints d],
          nodesToConvert := st.nodesToConvert ++ [XNode.mk i t d tr bb cs] }
      else st
    convertChildren cs st1

/-- Embedding of the loop applying `convertPath` over a list of nodes, threading the state
(the `for child in children: convertPath(child)` loop, and also the
`for id, item in self.svg.selected.items(): convertPath(item)` loop). -/
def convertChildren : List XNode → ConvState → ConvState
  | [], st => st
  | c :: rest, st => convertChildren rest (convertPath c st)

end

mutual

/-- The path-tagged nodes of a subtree in visit (preorder) order. -/
def pathNodes : XNode → List XNode
  | XNode.mk i t d tr bb cs =>
    (if t = svgPathTag then [XNode.mk i t d tr bb cs] else []) ++ pathNodesList cs

/-- The path-tagged nodes of a forest in visit order. -/
def pathNodesList : List XNode → List XNode
  | [] => []
  | c :: rest => pathNodes c ++ pathNodesList rest

end

/-- The polylines a subtree contributes to the line collection. -/
def pathLines (n : XNode) : List (List Point) :=
  (pathNodes n).map (fun m => cspPoints m.d)

/-- The polylines a forest contributes to the line collection. -/
def pathLinesList (l : List XNode) : List (List Point) :=
  (pathNodesList l).map (fun m => cspPoints m.d)

mutual

/-- Ids of all strict descendants of a node: every id that occurs as some
child of some node anywhere in the subtree. -/
def descendantIds : XNode → List Nat
  | XNode.mk _ _ _ _ _ cs => descendantIdsList cs

/-- Ids of all members of a forest and of their strict descendants. -/
def descendantIdsList : List XNode → List Nat
  | [] => []
  | c :: rest => c.id :: (descendantIds c ++ descendantIdsList rest)

end

mutual

/-- All parent-child id pairs of a subtree. -/
def parentChildPairs : XNode → List (Nat × Nat)
  | XNode.mk i _ _ _ _ cs => parentChildPairsList i cs

/-- Parent-child id pairs of a forest whose members have parent id `p`. -/
def parentChildPairsList : Nat → List XNode → List (Nat × Nat)
  | _, [] => []
  | p, c :: rest => (p, c.id) :: (parentChildPairs c ++ parentChildPairsList p rest)

end

mutual

/-- Modelled from the spec: the optional "Apply Transformations" extension
(`applytransform.ApplyTransform().recursiveFuseTransform`, imported from the
repository outside `src/`) bakes the inherited coordinate transform of a node
directly into its geometry, removing the transform attribute.  Baking
preserves rendered bounding boxes, so in this model only the transform
attribute changes, recursively on the whole subtree. -/
def fuseTransforms : XNode → XNode
  | XNode.mk i t d _ bb cs => XNode.mk i t d none bb (fuseChildren cs)

/-- The map of `fuseTransforms` over a forest. -/
def fuseChildren : List XNode → List XNode
  | [] => []
  | c :: rest => fuseTransforms c :: fuseChildren rest

end

mutual

/-- Removal of every node whose id is in `ids` from its parent, everywhere
in the subtree (`node.getparent().remove(node)` over the collected nodes,
with ids standing for `lxml` object identity). -/
def eraseByIds (ids : List Nat) : XNode → XNode
  | XNode.mk i t d tr bb cs => XNode.mk i t d tr bb (eraseChildren ids cs)

/-- The action of `eraseByIds` on a forest: members whose id is listed are dropped. -/
def eraseChildren (ids : List Nat) : List XNode → List XNode
  | [] => []
  | c :: rest =>
    if c.id ∈ ids then eraseChildren ids rest
    else eraseByIds ids c :: eraseChildren ids rest

end

/-- Embedding of `parent.add(child)`: append one child to the child list. -/
def appendChild (n c : XNode) : XNode :=
  match n with
  | XNode.mk i t d tr bb cs => XNode.mk i t d tr bb (cs ++ [c])

/-- The options declared by `vpypetools.__init__`. -/
structure VOptions where
  linesort_no_flip : Bool
  apply_transformations : Bool
  output_show : Bool
  output_stats : Bool
  output_trajectories : Bool
  keep_selection : Bool

/-- The percentage-saving computation of the stats block:
`(1.0 - after / before) * 100.0` guarded by `before > 0`, else `0.0`. -/
def lengthSaving (lengthBefore lengthAfter : ℚ) : ℚ :=
  if 0 < lengthBefore then (1 - lengthAfter / lengthBefore) * 100 else 0

/-- The error message emitted when the line collection is empty. -/
def noPathsMsg : String :=
  "Selection does not contain any paths. Try to cast your objects to paths using CTRL + SHIFT + C or strokes to paths using CTRL + ALT+ C"

/-- The document root after the optional transform-flattening pre-pass. -/
def docRootAfterPrePass (opts : VOptions) (available : Bool) (root : XNode) : XNode :=
  if opts.apply_transformations && available then fuseTransforms root else root

/-- The selected nodes after the optional transform-flattening pre-pass
(the pre-pass rewrites the live tree in place; the selection references
nodes of that tree). -/
def selectionAfterPrePass (opts : VOptions) (available : Bool) (selected : List XNode) :
    List XNode :=
  if opts.apply_transformations && available then fuseChildren selected else selected

/-- The traversal of `vpypetools.effect`: over the whole document root when
the selection is empty, over the selected items otherwise. -/
def traversal (opts : VOptions) (available : Bool) (root : XNode) (selected : List XNode) :
    ConvState :=
  if selected.length = 0 then
    convertPath (docRootAfterPrePass opts available root) ⟨[], []⟩
  else
    convertChildren (selectionAfterPrePass opts available selected) ⟨[], []⟩

/-- The bounding box recorded for repositioning: accumulated over the
collected nodes (`bbox += element.bounding_box()` from `bbox = None`) when
the selection is empty, over the selection (`ElementList.bounding_box`)
otherwise. -/
def recordedBB (opts : VOptions) (available : Bool) (root : XNode) (selected : List XNode) :
    Option BBox :=
  if selected.length = 0 then
    (traversal opts available root selected).nodesToConvert.foldl
      (fun acc n => addOptBB acc n.bbox) none
  else
    (selectionAfterPrePass opts available selected).foldl
      (fun acc n => addOptBB acc n.bbox) none

/-- The diagnostic line surfaced before non-empty external CLI output. -/
def inkscapeNoteMsg : String :=
  "Inkscape returned the following output when trying to run the vpype object to path back-conversion:"

/-- The new group grafted into the document: an `svg:g` holding the children
of the reparsed labelled layer, positioned by
`translate(bbox.left, bbox.top)`, with the fresh unique id; when the
transform-flattening pass ran it is re-applied to the group afterwards. -/
def newGroupFor (opts : VOptions) (available : Bool) (bb : Option BBox)
    (freshId : Nat) (convertedChildren : List XNode) : XNode :=
  let b := bb.getD ⟨0, 0, 0, 0⟩
  let g0 := XNode.mk freshId "svg:g" [] (some (b.left, b.top)) ⟨0, 0, 0, 0⟩ convertedChildren
  if opts.apply_transformations && available then fuseTransforms g0 else g0

/-- The final document root of a successful run: the new group appended to
the root, then — when `keep_selection` is false — every collected node
removed from its parent. -/
def finalRootFor (opts : VOptions) (root1 newGroup : XNode) (ids : List Nat) : XNode :=
  if opts.keep_selection = false then
    eraseByIds ids (appendChild root1 newGroup)
  else
    appendChild root1 newGroup

/-- Observable outcome of one run of `vpypetools.effect`. -/
structure EffectResult where
  messages : List String
  debugs : List String
  optimizationRun : Bool
  tempCreated : Bool
  tempExistsAtEnd : Bool
  finalRoot : XNode
  lc : List (List Point)
  nodesToConvert : List XNode
  recordedBBox : Option BBox
  newGroupId : Option Nat
  statsReported : Option (ℚ × ℚ)

/-- Embedding of `vpypetools.effect`.  External collaborators are inputs:
`available` is whether `import applytransform` succeeds, `convertedChildren`
are the children of the labelled group parsed back from the temp file after
the external `inkscape` invocation, `freshId` is `get_unique_id`, `cliOutput`
is the textual output of the external binary, and the four lengths are
`doc.length()` / `doc.pen_up_length()` before and after `linesort`. -/
def vpypeEffect (opts : VOptions) (available : Bool) (root : XNode)
    (selected : List XNode) (convertedChildren : List XNode) (freshId : Nat)
    (cliOutput : String)
    (toolingBefore travelingBefore toolingAfter travelingAfter : ℚ) :
    EffectResult :=
  let root1 := docRootAfterPrePass opts available root
  let st := traversal opts available root selected
  let bbox := recordedBB opts available root selected
  if st.lc.length = 0 then
    { messages := [noPathsMsg], debugs := [], optimizationRun := false,
      tempCreated := false, tempExistsAtEnd := false, finalRoot := root1,
      lc := st.lc, nodesToConvert := st.nodesToConvert, recordedBBox := bbox,
      newGroupId := none, statsReported := none }
  else
    let stats :=
      if opts.output_stats then
        some (lengthSaving toolingBefore toolingAfter,
          lengthSaving travelingBefore travelingAfter)
      else none
    let debugs := if 0 < cliOutput.length then [inkscapeNoteMsg, cliOutput] else []
    let tempAfterWrite := true
    let newGroup := newGroupFor opts available bbox freshId convertedChildren
    let tempAtEnd := if tempAfterWrite then false else tempAfterWrite
    let finalRoot := finalRootFor opts root1 newGroup (st.nodesToConvert.map XNode.id)
    { messages := [], debugs := debugs, optimizationRun := true,
      tempCreated := tempAfterWrite, tempExistsAtEnd := tempAtEnd,
      finalRoot := finalRoot, lc := st.lc, nodesToConvert := st.nodesToConvert,
      recordedBBox := bbox, newGroupId := some freshId, statsReported := stats }

theorem pathLinesList_cons (c : XNode) (rest : List XNode) :
    pathLinesList (c :: rest) = pathLines c ++ pathLinesList rest := by
  simp [pathLinesList, pathLines, pathNodesList]

mutual

theorem convertPath_eq (n : XNode) (st : ConvState) :
    convertPath n st =
      ⟨st.lc ++ pathLines n, st.nodesToConvert ++ pathNodes n⟩ := by
  cases n with
  | mk i t d tr bb cs =>
    rw [convertPath, convertChildren_eq]
    by_cases h : t = svgPathTag
    · simp [h, pathLines, pathLinesList, pathNodes, XNode.d]
    · simp [h, pathLines, pathLinesList, pathNodes]

theorem convertChildren_eq (l : List XNode) (st : ConvState) :
    convertChildren l st =
      ⟨st.lc ++ pathLinesList l, st.nodesToConvert ++ pathNodesList l⟩ := by
  cases l with
  | nil => simp [convertChildren, pathLinesList, pathNodesList]
  | cons c rest =>
    rw [convertChildren, convertPath_eq c st, convertChildren_eq rest]
    simp [pathLinesList_cons, pathNodesList]

end

theorem foldl_append_singleton {α β : Type} (f : α → β) (l : List α) (acc : List β) :
    l.foldl (fun a x => a ++ [f x]) acc = acc ++ l.map f := by
  induction l generalizing acc with
  | nil => simp
  | cons x xs ih => simp [ih]

theorem foldl_append_fn {α β : Type} (h : α → List β) (l : List α) (acc : List β) :
    l.foldl (fun a x => a ++ h x) acc = acc ++ (l.map h).flatten := by
  induction l generalizing acc with
  | nil => simp
  | cons x xs ih => simp [ih]

theorem cspPoints_eq (p : CSP) :
    cspPoints p = (p.map (fun subpath => subpath.map (fun csp => csp.2.1))).flatten := by
  rw [cspPoints]
  have hinner : ∀ (subpath : List (Point × Point × Point)) (pts : List Point),
      subpath.foldl (fun pts2 csp => pts2 ++ [Point.mk csp.2.1.x csp.2.1.y]) pts =
        pts ++ subpath.map (fun csp => csp.2.1) := by
    intro subpath pts
    rw [foldl_append_singleton (fun csp => Point.mk csp.2.1.x csp.2.1.y) subpath pts]
  calc p.foldl (fun pts subpath =>
        subpath.foldl (fun pts2 csp => pts2 ++ [Point.mk csp.2.1.x csp.2.1.y]) pts) []
      = p.foldl (fun pts subpath => pts ++ subpath.map (fun csp => csp.2.1)) [] := by
        congr 1
        funext pts subpath
        exact hinner subpath pts
    _ = [] ++ (p.map (fun subpath => subpath.map (fun csp => csp.2.1))).flatten :=
        foldl_append_fn _ p []
    _ = (p.map (fun subpath => subpath.map (fun csp => csp.2.1))).flatten := by simp

theorem fuseChildren_eq_map (l : List XNode) :
    fuseChildren l = l.map fuseTransforms := by
  induction l with
  | nil => rfl
  | cons c rest ih => simp [fuseChildren, ih]

theorem fuseTransforms_id (n : XNode) : (fuseTransforms n).id = n.id := by
  cases n
  rfl

theorem fuseTransforms_tag (n : XNode) : (fuseTransforms n).tag = n.tag := by
  cases n
  rfl

theorem fuseTransforms_d (n : XNode) : (fuseTransforms n).d = n.d := by
  cases n
  rfl

theorem fuseTransforms_bbox (n : XNode) : (fuseTransforms n).bbox = n.bbox := by
  cases n
  rfl

mutual

theorem pathNodes_fuse (n : XNode) :
    pathNodes (fuseTransforms n) = (pathNodes n).map fuseTransforms := by
  cases n with
  | mk i t d tr bb cs =>
    rw [fuseTransforms, pathNodes, pathNodes, pathNodesList_fuse cs]
    by_cases h : t = svgPathTag
    · simp [h, fuseTransforms]
    · simp [h]

theorem pathNodesList_fuse (l : List XNode) :
    pathNodesList (fuseChildren l) = (pathNodesList l).map fuseTransforms := by
  cases l with
  | nil => rfl
  | cons c rest =>
    rw [fuseChildren, pathNodesList, pathNodesList, pathNodes_fuse c,
      pathNodesList_fuse rest]
    simp

end

theorem pathLines_fuse (n : XNode) : pathLines (fuseTransforms n) = pathLines n := by
  rw [pathLines, pathLines, pathNodes_fuse]
  simp [fuseTransforms_d]

theorem pathLinesList_fuse (l : List XNode) :
    pathLinesList (fuseChildren l) = pathLinesList l := by
  rw [pathLinesList, pathLinesList, pathNodesList_fuse]
  simp [fuseTransforms_d]

theorem eraseByIds_id (ids : List Nat) (n : XNode) :
    (eraseByIds ids n).id = n.id := by
  cases n
  rfl

theorem eraseChildren_append (ids : List Nat) (l1 l2 : List XNode) :
    eraseChildren ids (l1 ++ l2) = eraseChildren ids l1 ++ eraseChildren ids l2 := by
  induction l1 with
  | nil => simp [eraseChildren]
  | cons c rest ih =>
    by_cases h : c.id ∈ ids
    · simp [eraseChildren, h, ih]
    · simp [eraseChildren, h, ih]

mutual

theorem not_descendant_of_erase (ids : List Nat) (n : XNode) :
    ∀ i ∈ ids, i ∉ descendantIds (eraseByIds ids n) := by
  cases n with
  | mk j t d tr bb cs =>
    intro i hi
    rw [eraseByIds, descendantIds]
    exact not_descendantList_of_erase ids cs i hi

theorem not_descendantList_of_erase (ids : List Nat) (l : List XNode) :
    ∀ i ∈ ids, i ∉ descendantIdsList (eraseChildren ids l) := by
  cases l with
  | nil =>
    intro i _ hmem
    simp [eraseChildren, descendantIdsList] at hmem
  | cons c rest =>
    intro i hi
    by_cases h : c.id ∈ ids
    · rw [eraseChildren, if_pos h]
      exact not_descendantList_of_erase ids rest i hi
    · rw [eraseChildren, if_neg h, descendantIdsList]
      intro hmem
      rcases List.mem_cons.mp hmem with heq | hrest
      · rw [eraseByIds_id] at heq
        exact h (heq ▸ hi)
      · rcases List.mem_append.mp hrest with hin | hout
        · exact not_descendant_of_erase ids c i hi hin
        · exact not_descendantList_of_erase ids rest i hi hout

end

theorem parentChildPairsList_append (p : Nat) (l1 l2 : List XNode) :
    parentChildPairsList p (l1 ++ l2) =
      parentChildPairsList p l1 ++ parentChildPairsList p l2 := by
  induction l1 with
  | nil => simp [parentChildPairsList]
  | cons c rest ih => simp [parentChildPairsList, ih]

mutual

theorem parentChildPairs_fuse (n : XNode) :
    parentChildPairs (fuseTransforms n) = parentChildPairs n := by
  cases n with
  | mk i t d tr bb cs =>
    rw [fuseTransforms, parentChildPairs, parentChildPairs,
      parentChildPairsList_fuse i cs]

theorem parentChildPairsList_fuse (p : Nat) (l : List XNode) :
    parentChildPairsList p (fuseChildren l) = parentChildPairsList p l := by
  cases l with
  | nil => rfl
  | cons c rest =>
    rw [fuseChildren, parentChildPairsList, parentChildPairsList,
      parentChildPairs_fuse c, parentChildPairsList_fuse p rest, fuseTransforms_id]

end

theorem vpypeEffect_error (o : VOptions) (a : Bool) (r : XNode) (s cc : List XNode)
    (fid : Nat) (out : String) (tb vb ta va : ℚ)
    (h : (traversal o a r s).lc = []) :
    vpypeEffect o a r s cc fid out tb vb ta va =
      { messages := [noPathsMsg], debugs := [], optimizationRun := false,
        tempCreated := false, tempExistsAtEnd := false,
        finalRoot := docRootAfterPrePass o a r,
        lc := (traversal o a r s).lc,
        nodesToConvert := (traversal o a r s).nodesToConvert,
        recordedBBox := recordedBB o a r s, newGroupId := none,
        statsReported := none } := by
  simp [vpypeEffect, h]

theorem vpypeEffect_success (o : VOptions) (a : Bool) (r : XNode) (s cc : List XNode)
    (fid : Nat) (out : String) (tb vb ta va : ℚ)
    (h : (traversal o a r s).lc ≠ []) :
    vpypeEffect o a r s cc fid out tb vb ta va =
      { messages := [], debugs := if 0 < out.length then [inkscapeNoteMsg, out] else [],
        optimizationRun := true, tempCreated := true, tempExistsAtEnd := false,
        finalRoot := finalRootFor o (docRootAfterPrePass o a r)
          (newGroupFor o a (recordedBB o a r s) fid cc)
          ((traversal o a r s).nodesToConvert.map XNode.id),
        lc := (traversal o a r s).lc,
        nodesToConvert := (traversal o a r s).nodesToConvert,
        recordedBBox := recordedBB o a r s, newGroupId := some fid,
        statsReported := if o.output_stats then
          some (lengthSaving tb ta, lengthSaving vb va) else none } := by
  have hlen : ¬(traversal o a r s).lc.length = 0 := by
    simpa [List.length_eq_zero] using h
  simp [vpypeEffect, hlen]

/-- C10: the traversal appends exactly one polyline to the line collection
per visited `svg:path` element, in visit order; each polyline is the
concatenation of the on-curve control points (`csp[1]`) of all subpaths of the path in order; hence the polyline count equals the path-element count
(one per path element, regardless of how many subpaths each path has). -/
theorem c10_one_polyline_per_path (n : XNode) (st : ConvState) :
    (convertPath n st).lc = st.lc ++ (pathNodes n).map (fun m => cspPoints m.d) ∧
    (convertPath n st).lc.length = st.lc.length + (pathNodes n).length ∧
    ∀ p : CSP, cspPoints p =
      (p.map (fun subpath => subpath.map (fun csp => csp.2.1))).flatten := by
  refine ⟨?_, ?_, cspPoints_eq⟩
  · rw [convertPath_eq]
    rfl
  · rw [convertPath_eq]
    simp [pathLines]

/-- C5: a run of the bridge that reaches the end of `effect` (the line
collection is non-empty, so the success path runs to completion) writes the
temporary file and ends with it no longer existing on disk, whatever
`keep_selection` is. -/
theorem c5_temp_file_removed (o : VOptions) (a : Bool) (r : XNode) (s cc : List XNode)
    (fid : Nat) (out : String) (tb vb ta va : ℚ)
    (h : (vpypeEffect o a r s cc fid out tb vb ta va).lc ≠ []) :
    (vpypeEffect o a r s cc fid out tb vb ta va).tempCreated = true ∧
    (vpypeEffect o a r s cc fid out tb vb ta va).tempExistsAtEnd = false := by
  have htrav : (traversal o a r s).lc ≠ [] := by
    intro heq
    exact h (by rw [vpypeEffect_error o a r s cc fid out tb vb ta va heq]; exact heq)
  rw [vpypeEffect_success o a r s cc fid out tb vb ta va htrav]
  exact ⟨rfl, rfl⟩

/-- C9: with `output_stats` enabled, the reported savings come from the
guarded formula: a zero pre-optimization length reports a saving of `0`,
and a positive one reports `(1 - after/before) * 100` — no division by a
zero length is ever performed. -/
theorem c9_stats_guard (o : VOptions) (a : Bool) (r : XNode) (s cc : List XNode)
    (fid : Nat) (out : String) (tb vb ta va : ℚ)
    (hstats : o.output_stats = true)
    (hsucc : (vpypeEffect o a r s cc fid out tb vb ta va).lc ≠ [])
    (htool : 0 ≤ tb) (htrav : 0 ≤ vb) :
    (vpypeEffect o a r s cc fid out tb vb ta va).statsReported =
      some (lengthSaving tb ta, lengthSaving vb va) ∧
    (tb = 0 → lengthSaving tb ta = 0) ∧
    (tb ≠ 0 → lengthSaving tb ta = (1 - ta / tb) * 100) ∧
    (vb = 0 → lengthSaving vb va = 0) ∧
    (vb ≠ 0 → lengthSaving vb va = (1 - va / vb) * 100) := by
  have htraversal : (traversal o a r s).lc ≠ [] := by
    intro heq
    exact hsucc (by rw [vpypeEffect_error o a r s cc fid out tb vb ta va heq]; exact heq)
  refine ⟨?_, ?_, ?_, ?_, ?_⟩
  · rw [vpypeEffect_success o a r s cc fid out tb vb ta va htraversal]
    simp [hstats]
  · intro h0
    simp [lengthSaving, h0]
  · intro hne
    have hpos : 0 < tb := lt_of_le_of_ne htool (Ne.symm hne)
    simp [lengthSaving, hpos]
  · intro h0
    simp [lengthSaving, h0]
  · intro hne
    have hpos : 0 < vb := lt_of_le_of_ne htrav (Ne.symm hne)
    simp [lengthSaving, hpos]

/-- C3 (amended): when the traversal collects no path element, the bridge
emits the error message and returns without attempting the optimization,
without creating the temporary file, and without any mutation of the
document beyond the optional transform-flattening pre-pass; in particular
when `apply_transformations` is disabled or the extension is unavailable
the document is returned unchanged. -/
theorem c3_no_paths_abort (o : VOptions) (a : Bool) (r : XNode) (s cc : List XNode)
    (fid : Nat) (out : String) (tb vb ta va : ℚ)
    (h : (vpypeEffect o a r s cc fid out tb vb ta va).lc = []) :
    (vpypeEffect o a r s cc fid out tb vb ta va).messages = [noPathsMsg] ∧
    (vpypeEffect o a r s cc fid out tb vb ta va).optimizationRun = false ∧
    (vpypeEffect o a r s cc fid out tb vb ta va).tempCreated = false ∧
    (vpypeEffect o a r s cc fid out tb vb ta va).tempExistsAtEnd = false ∧
    (vpypeEffect o a r s cc fid out tb vb ta va).finalRoot = docRootAfterPrePass o a r ∧
    ((o.apply_transformations = false ∨ a = false) →
      (vpypeEffect o a r s cc fid out tb vb ta va).finalRoot = r) := by
  have htrav : (traversal o a r s).lc = [] := by
    by_contra hne
    rw [vpypeEffect_success o a r s cc fid out tb vb ta va hne] at h
    exact hne h
  rw [vpypeEffect_error o a r s cc fid out tb vb ta va htrav]
  refine ⟨rfl, rfl, rfl, rfl, rfl, ?_⟩
  intro hcase
  rcases hcase with h1 | h1 <;> simp [docRootAfterPrePass, h1]

theorem vpypeEffect_lc (o : VOptions) (a : Bool) (r : XNode) (s cc : List XNode)
    (fid : Nat) (out : String) (tb vb ta va : ℚ) :
    (vpypeEffect o a r s cc fid out tb vb ta va).lc = (traversal o a r s).lc := by
  by_cases h : (traversal o a r s).lc = []
  · rw [vpypeEffect_error o a r s cc fid out tb vb ta va h]
  · rw [vpypeEffect_success o a r s cc fid out tb vb ta va h]

theorem vpypeEffect_nodes (o : VOptions) (a : Bool) (r : XNode) (s cc : List XNode)
    (fid : Nat) (out : String) (tb vb ta va : ℚ) :
    (vpypeEffect o a r s cc fid out tb vb ta va).nodesToConvert =
      (traversal o a r s).nodesToConvert := by
  by_cases h : (traversal o a r s).lc = []
  · rw [vpypeEffect_error o a r s cc fid out tb vb ta va h]
  · rw [vpypeEffect_success o a r s cc fid out tb vb ta va h]

theorem vpypeEffect_recordedBBox (o : VOptions) (a : Bool) (r : XNode) (s cc : List XNode)
    (fid : Nat) (out : String) (tb vb ta va : ℚ) :
    (vpypeEffect o a r s cc fid out tb vb ta va).recordedBBox = recordedBB o a r s := by
  by_cases h : (traversal o a r s).lc = []
  · rw [vpypeEffect_error o a r s cc fid out tb vb ta va h]
  · rw [vpypeEffect_success o a r s cc fid out tb vb ta va h]

theorem eraseByIds_children (ids : List Nat) (n : XNode) :
    (eraseByIds ids n).children = eraseChildren ids n.children := by
  cases n
  rfl

theorem appendChild_children (n c : XNode) : (appendChild n c).children = n.children ++ [c] := by
  cases n
  rfl

theorem newGroupFor_id (o : VOptions) (a : Bool) (bb : Option BBox) (fid : Nat)
    (cc : List XNode) : (newGroupFor o a bb fid cc).id = fid := by
  rw [newGroupFor]
  split
  · rw [fuseTransforms_id]
    rfl
  · rfl

theorem parentChildPairs_appendChild (n c : XNode) :
    parentChildPairs (appendChild n c) =
      parentChildPairs n ++ ((n.id, c.id) :: parentChildPairs c) := by
  cases n with
  | mk i t d tr bb cs =>
    rw [appendChild, parentChildPairs, parentChildPairsList_append, parentChildPairs]
    simp [parentChildPairsList, XNode.id]

theorem parentChildPairs_prePass (o : VOptions) (a : Bool) (r : XNode) :
    parentChildPairs (docRootAfterPrePass o a r) = parentChildPairs r := by
  rw [docRootAfterPrePass]
  split
  · exact parentChildPairs_fuse r
  · rfl

theorem pathLines_prePass (o : VOptions) (a : Bool) (r : XNode) :
    pathLines (docRootAfterPrePass o a r) = pathLines r := by
  rw [docRootAfterPrePass]
  split
  · exact pathLines_fuse r
  · rfl

theorem map_pathNodes_prePass {α : Type} (f : XNode → α)
    (hf : ∀ m, f (fuseTransforms m) = f m) (o : VOptions) (a : Bool) (r : XNode) :
    (pathNodes (docRootAfterPrePass o a r)).map f = (pathNodes r).map f := by
  rw [docRootAfterPrePass]
  split
  · rw [pathNodes_fuse, List.map_map]
    simp only [Function.comp_def, hf]
  · rfl

theorem map_pathNodesList_fuse {α : Type} (f : XNode → α)
    (hf : ∀ m, f (fuseTransforms m) = f m) (l : List XNode) :
    (pathNodesList (fuseChildren l)).map f = (pathNodesList l).map f := by
  rw [pathNodesList_fuse, List.map_map]
  simp only [Function.comp_def, hf]

theorem sumBBox_map_bbox (l : List XNode) :
    sumBBox (l.map XNode.bbox) = l.foldl (fun acc n => addOptBB acc n.bbox) none := by
  rw [sumBBox, List.foldl_map]

theorem foldl_bbox_fuseChildren (l : List XNode) :
    (fuseChildren l).foldl (fun acc n => addOptBB acc n.bbox) none =
      l.foldl (fun acc n => addOptBB acc n.bbox) none := by
  rw [fuseChildren_eq_map, List.foldl_map]
  simp only [fuseTransforms_bbox]

theorem foldl_bbox_pathNodes_prePass (o : VOptions) (a : Bool) (r : XNode) :
    (pathNodes (docRootAfterPrePass o a r)).foldl (fun acc n => addOptBB acc n.bbox) none =
      (pathNodes r).foldl (fun acc n => addOptBB acc n.bbox) none := by
  rw [docRootAfterPrePass]
  split
  · rw [pathNodes_fuse, List.foldl_map]
    simp only [fuseTransforms_bbox]
  · rfl

theorem pathLinesList_prePass (o : VOptions) (a : Bool) (s : List XNode) :
    pathLinesList (selectionAfterPrePass o a s) = pathLinesList s := by
  rw [selectionAfterPrePass]
  split
  · exact pathLinesList_fuse s
  · rfl

theorem map_pathNodesList_prePass {α : Type} (f : XNode → α)
    (hf : ∀ m, f (fuseTransforms m) = f m) (o : VOptions) (a : Bool) (s : List XNode) :
    (pathNodesList (selectionAfterPrePass o a s)).map f = (pathNodesList s).map f := by
  rw [selectionAfterPrePass]
  split
  · exact map_pathNodesList_fuse f hf s
  · rfl

theorem foldl_bbox_selection_prePass (o : VOptions) (a : Bool) (s : List XNode) :
    (selectionAfterPrePass o a s).foldl (fun acc n => addOptBB acc n.bbox) none =
      s.foldl (fun acc n => addOptBB acc n.bbox) none := by
  rw [selectionAfterPrePass]
  split
  · exact foldl_bbox_fuseChildren s
  · rfl

/-- C8: with an empty selection the traversal collects the path elements of
the whole document root (in visit order) and the recorded repositioning box
is the accumulated union of the bounding boxes of exactly the collected nodes;
with a non-empty selection the traversal runs over the selected nodes and
the recorded box is the bounding box of the selection. -/
theorem c8_traversal_scope_and_bbox (o : VOptions) (a : Bool) (r : XNode)
    (s cc : List XNode) (fid : Nat) (out : String) (tb vb ta va : ℚ) :
    (s = [] →
      (vpypeEffect o a r s cc fid out tb vb ta va).lc = pathLines r ∧
      (vpypeEffect o a r s cc fid out tb vb ta va).nodesToConvert.map XNode.id =
        (pathNodes r).map XNode.id ∧
      (vpypeEffect o a r s cc fid out tb vb ta va).recordedBBox =
        sumBBox ((pathNodes r).map XNode.bbox)) ∧
    (s ≠ [] →
      (vpypeEffect o a r s cc fid out tb vb ta va).lc = pathLinesList s ∧
      (vpypeEffect o a r s cc fid out tb vb ta va).nodesToConvert.map XNode.id =
        (pathNodesList s).map XNode.id ∧
      (vpypeEffect o a r s cc fid out tb vb ta va).recordedBBox =
        sumBBox (s.map XNode.bbox)) := by
  constructor
  · intro hs
    subst hs
    refine ⟨?_, ?_, ?_⟩
    · rw [vpypeEffect_lc]
      simp only [traversal, List.length_nil, if_pos, convertPath_eq]
      simp [pathLines_prePass]
    · rw [vpypeEffect_nodes]
      simp only [traversal, List.length_nil, if_pos, convertPath_eq]
      simp only [List.nil_append]
      exact map_pathNodes_prePass XNode.id fuseTransforms_id o a r
    · rw [vpypeEffect_recordedBBox]
      simp only [recordedBB, traversal, List.length_nil, if_pos, convertPath_eq]
      simp only [List.nil_append, sumBBox_map_bbox]
      exact foldl_bbox_pathNodes_prePass o a r
  · intro hs
    have hlen : ¬s.length = 0 := by simpa [List.length_eq_zero] using hs
    refine ⟨?_, ?_, ?_⟩
    · rw [vpypeEffect_lc]
      simp only [traversal, if_neg hlen, convertChildren_eq]
      simp [pathLinesList_prePass]
    · rw [vpypeEffect_nodes]
      simp only [traversal, if_neg hlen, convertChildren_eq]
      simp only [List.nil_append]
      exact map_pathNodesList_prePass XNode.id fuseTransforms_id o a s
    · rw [vpypeEffect_recordedBBox]
      simp only [recordedBB, if_neg hlen, sumBBox_map_bbox]
      exact foldl_bbox_selection_prePass o a s

/-- C6: after a successful run with `keep_selection = false`, no collected
path node remains as a child of any node in the final document (in particular
not as a child of its original parent), while the freshly inserted optimized
group is a child of the document root; with `keep_selection = true` every
parent-child relationship of the original document survives, so the
collected nodes keep their original parents. -/
theorem c6_keep_selection_removal (o : VOptions) (a : Bool) (r : XNode)
    (s cc : List XNode) (fid : Nat) (out : String) (tb vb ta va : ℚ)
    (hsucc : (vpypeEffect o a r s cc fid out tb vb ta va).lc ≠ [])
    (hfresh : fid ∉ (vpypeEffect o a r s cc fid out tb vb ta va).nodesToConvert.map XNode.id) :
    (o.keep_selection = false →
      (∀ i ∈ (vpypeEffect o a r s cc fid out tb vb ta va).nodesToConvert.map XNode.id,
        i ∉ descendantIds (vpypeEffect o a r s cc fid out tb vb ta va).finalRoot) ∧
      fid ∈ (vpypeEffect o a r s cc fid out tb vb ta va).finalRoot.children.map XNode.id) ∧
    (o.keep_selection = true →
      ∀ pr ∈ parentChildPairs r,
        pr ∈ parentChildPairs (vpypeEffect o a r s cc fid out tb vb ta va).finalRoot) := by
  have htrav : (traversal o a r s).lc ≠ [] := by
    rw [vpypeEffect_lc] at hsucc
    exact hsucc
  have heq := vpypeEffect_success o a r s cc fid out tb vb ta va htrav
  rw [heq] at hfresh ⊢
  simp only at hfresh ⊢
  constructor
  · intro hk
    rw [finalRootFor, if_pos hk]
    refine ⟨?_, ?_⟩
    · intro i hi
      exact not_descendant_of_erase _ _ i hi
    · have hgid : (newGroupFor o a (recordedBB o a r s) fid cc).id = fid :=
        newGroupFor_id o a (recordedBB o a r s) fid cc
      have hnotin : ¬(newGroupFor o a (recordedBB o a r s) fid cc).id ∈
          (traversal o a r s).nodesToConvert.map XNode.id := by
        rw [hgid]
        exact hfresh
      rw [eraseByIds_children, appendChild_children, eraseChildren_append]
      rw [eraseChildren, if_neg hnotin, eraseChildren]
      rw [List.map_append]
      refine List.mem_append_right _ ?_
      simp [eraseByIds_id, hgid]
  · intro hk pr hpr
    rw [finalRootFor, if_neg (by simp [hk])]
    rw [parentChildPairs_appendChild]
    refine List.mem_append_left _ ?_
    rw [parentChildPairs_prePass]
    exact hpr

/-- A concrete square-ish path node: one subpath with two on-curve points. -/
def samplePath : XNode :=
  XNode.mk 1 svgPathTag
    [[(Point.mk 0 0, Point.mk 0 0, Point.mk 0 0),
      (Point.mk 10 0, Point.mk 10 0, Point.mk 10 0)]]
    none ⟨0, 0, 10, 10⟩ []

/-- A concrete document root holding one path. -/
def sampleRoot : XNode := XNode.mk 0 "svg" [] none ⟨0, 0, 10, 10⟩ [samplePath]

/-- A concrete document root with no path anywhere, whose only child group
carries a transform attribute. -/
def noPathRoot : XNode :=
  XNode.mk 0 "svg" [] none ⟨0, 0, 0, 0⟩
    [XNode.mk 1 "svg:g" [] (some (1, 2)) ⟨0, 0, 0, 0⟩ []]

/-- Options: everything off, `keep_selection` off. -/
def sampleOpts : VOptions := ⟨false, false, false, false, false, false⟩

/-- Options: everything off except `apply_transformations`. -/
def applyOpts : VOptions := ⟨false, true, false, false, false, true⟩

/-- Options: everything off except `output_stats`. -/
def statsOpts : VOptions := ⟨false, false, false, true, false, true⟩

/-- Options: everything off, `keep_selection` on. -/
def plainOpts : VOptions := ⟨false, false, false, false, false, true⟩

/-- C3 counterexample: with `apply_transformations` enabled and the
extension available, a no-path run still emits the error message and
aborts, but the document HAS been mutated: the transform
attribute of the child group was removed by the pre-pass. -/
theorem c3_counterexample :
    (vpypeEffect applyOpts true noPathRoot [] [] 5 "" 0 0 0 0).lc = [] ∧
    (vpypeEffect applyOpts true noPathRoot [] [] 5 "" 0 0 0 0).messages = [noPathsMsg] ∧
    (vpypeEffect applyOpts true noPathRoot [] [] 5 "" 0 0 0 0).finalRoot.children.map
        XNode.transform ≠
      noPathRoot.children.map XNode.transform := by
  refine ⟨by decide, by decide, by decide⟩

/-- C3 witness: with the pre-pass disabled, a no-path run emits the error
message and leaves the document unchanged. -/
theorem c3_no_paths_abort_witness :
    (vpypeEffect plainOpts false noPathRoot [] [] 5 "" 0 0 0 0).lc = [] ∧
    (vpypeEffect plainOpts false noPathRoot [] [] 5 "" 0 0 0 0).messages = [noPathsMsg] ∧
    (vpypeEffect plainOpts false noPathRoot [] [] 5 "" 0 0 0 0).tempCreated = false ∧
    (vpypeEffect plainOpts false noPathRoot [] [] 5 "" 0 0 0 0).finalRoot = noPathRoot := by
  have hlc : (vpypeEffect plainOpts false noPathRoot [] [] 5 "" 0 0 0 0).lc = [] := by decide
  have h := c3_no_paths_abort plainOpts false noPathRoot [] [] 5 "" 0 0 0 0 hlc
  exact ⟨hlc, h.1, h.2.2.1, h.2.2.2.2.2 (Or.inl rfl)⟩

/-- C5 witness: a successful run over a one-path document creates the temp
file and ends with it removed. -/
theorem c5_temp_file_removed_witness :
    (vpypeEffect sampleOpts false sampleRoot [] [] 5 "" 0 0 0 0).lc ≠ [] ∧
    (vpypeEffect sampleOpts false sampleRoot [] [] 5 "" 0 0 0 0).tempCreated = true ∧
    (vpypeEffect sampleOpts false sampleRoot [] [] 5 "" 0 0 0 0).tempExistsAtEnd = false := by
  have hne : (vpypeEffect sampleOpts false sampleRoot [] [] 5 "" 0 0 0 0).lc ≠ [] := by decide
  have h := c5_temp_file_removed sampleOpts false sampleRoot [] [] 5 "" 0 0 0 0 hne
  exact ⟨hne, h.1, h.2⟩

/-- C9 witness: stats enabled, tooling 4 → 1 and traveling 2 → 1. -/
theorem c9_stats_guard_witness :
    statsOpts.output_stats = true ∧
    (vpypeEffect statsOpts false sampleRoot [] [] 5 "" 4 2 1 1).lc ≠ [] ∧
    (vpypeEffect statsOpts false sampleRoot [] [] 5 "" 4 2 1 1).statsReported =
      some (lengthSaving 4 1, lengthSaving 2 1) ∧
    ((4 : ℚ) ≠ 0 → lengthSaving 4 1 = (1 - 1 / 4) * 100) := by
  have hne : (vpypeEffect statsOpts false sampleRoot [] [] 5 "" 4 2 1 1).lc ≠ [] := by decide
  have h := c9_stats_guard statsOpts false sampleRoot [] [] 5 "" 4 2 1 1 rfl hne
    (by norm_num) (by norm_num)
  exact ⟨rfl, hne, h.1, h.2.2.1⟩

/-- C6 witness: successful run, `keep_selection = false`, fresh id 5: the
collected path (id 1) is nowhere a child in the final tree and the new
group (id 5) is a child of the root. -/
theorem c6_keep_selection_removal_witness :
    (vpypeEffect sampleOpts false sampleRoot [] [] 5 "" 0 0 0 0).lc ≠ [] ∧
    (5 ∉ (vpypeEffect sampleOpts false sampleRoot [] [] 5 "" 0 0 0 0).nodesToConvert.map
      XNode.id) ∧
    (∀ i ∈ (vpypeEffect sampleOpts false sampleRoot [] [] 5 "" 0 0 0 0).nodesToConvert.map
        XNode.id,
      i ∉ descendantIds (vpypeEffect sampleOpts false sampleRoot [] [] 5 "" 0 0 0 0).finalRoot) ∧
    5 ∈ (vpypeEffect sampleOpts false sampleRoot [] [] 5 "" 0 0 0 0).finalRoot.children.map
      XNode.id := by
  have hne : (vpypeEffect sampleOpts false sampleRoot [] [] 5 "" 0 0 0 0).lc ≠ [] := by decide
  have hfresh : 5 ∉ (vpypeEffect sampleOpts false sampleRoot [] [] 5 "" 0 0 0 0).nodesToConvert.map
      XNode.id := by decide
  have h := c6_keep_selection_removal sampleOpts false sampleRoot [] [] 5 "" 0 0 0 0 hne hfresh
  exact ⟨hne, hfresh, (h.1 rfl).1, (h.1 rfl).2⟩

/-- C8 witness: empty selection over the one-path document. -/
theorem c8_traversal_scope_and_bbox_witness :
    (vpypeEffect sampleOpts false sampleRoot [] [] 5 "" 0 0 0 0).lc = pathLines sampleRoot ∧
    (vpypeEffect sampleOpts false sampleRoot [] [] 5 "" 0 0 0 0).nodesToConvert.map XNode.id =
      (pathNodes sampleRoot).map XNode.id ∧
    (vpypeEffect sampleOpts false sampleRoot [] [] 5 "" 0 0 0 0).recordedBBox =
      sumBBox ((pathNodes sampleRoot).map XNode.bbox) :=
  (c8_traversal_scope_and_bbox sampleOpts false sampleRoot [] [] 5 "" 0 0 0 0).1 rfl

end VpypeTools
